import Mathlib

/-!
Shallow embedding of the zorm SQL statement compiler (query builders, filter
compiler, join resolver) and verification of its specification claims.

The embedding follows `src/queryBuilders/find.ts`, `comparaison.ts`, `join.ts`,
`select.ts`, `delete.ts`, `insert.ts`, the `Update` builder, `helpers.ts` and
`types.ts`.  JavaScript runtime values that can appear in a filter are modelled
by the closed sum `WhereValue`; truthiness, `typeof` dispatch and `for ... in`
enumeration are modelled explicitly.  Fallible paths (type inference failure,
dereferencing an unregistered alias) return `Except`.
-/

set_option autoImplicit false

namespace Zorm

/-- Primitive JavaScript values that occur as entity field values:
numbers, strings, booleans and `Date` objects (identified by their ISO text). -/
inductive Scalar where
  | num (n : Int)
  | str (s : String)
  | bool (b : Bool)
  | date (iso : String)
deriving Repr, DecidableEq

/-- The `_op` tag of a `Comparison` (types.ts). -/
inductive CompOp where
  | greater
  | greaterOrEqual
  | less
  | lessOrEqual
  | not
deriving Repr, DecidableEq

mutual

/-- A value of a `WhereObject` key: `null`, a scalar, an array of scalars, a
tagged `Comparison` (whose own value may be `null`), or a plain nested object
(a mapping, as used by the alias-aware filter compiler).  The entries of a
nested object are a `WhereFields` list, mutually defined so that recursion
over values stays structural. -/
inductive WhereValue where
  | wnull
  | scalar (v : Scalar)
  | arr (vs : List Scalar)
  | comp (op : CompOp) (value : Option Scalar)
  | nested (sub : WhereFields)

/-- The ordered entries of a nested object value. -/
inductive WhereFields where
  | nil
  | cons (key : String) (value : WhereValue) (rest : WhereFields)

end

/-- The entries of a nested object value, as a list. -/
def WhereFields.toList : WhereFields → List (String × WhereValue)
  | .nil => []
  | .cons k v rest => (k, v) :: rest.toList

/-- A `WhereObject` is an ordered key/value mapping (JS object key order). -/
abbrev WhereObject := List (String × WhereValue)

/-- Association-list lookup, first match wins (JS object property access). -/
def lookupA {α : Type} : List (String × α) → String → Option α
  | [], _ => none
  | (k, v) :: rest, key => if k = key then some v else lookupA rest key

/-- Field declaration (types.ts `FieldDefinition`): optional physical name,
optional declared SQL type, nullable / default flags. -/
structure FieldDefinition where
  name : Option String := none
  type : Option String := none
  nullable : Bool := false
  hasDBDefault : Bool := false
deriving Repr

/-- Entity definition (types.ts `EntityDefinition`): table name, primary key
field name and the insertion-ordered field map. -/
structure EntityDefinition where
  tableName : String
  primaryKeyFieldName : String
  fields : List (String × FieldDefinition)
deriving Repr

/-- Decimal digits of a natural number, most significant first, with explicit
fuel (the fuel `n + 1` always suffices). -/
def natDigitsAux : Nat → Nat → List Char
  | 0, _ => []
  | f + 1, n =>
    if n < 10 then [Nat.digitChar n]
    else natDigitsAux f (n / 10) ++ [Nat.digitChar (n % 10)]

/-- Decimal rendering of a natural number, used for every interpolated
parameter counter in generated SQL text. -/
def natStr (n : Nat) : String := ⟨natDigitsAux (n + 1) n⟩

/-- Snake-case transform of a logical field name (models lodash `snakeCase`
for plain camelCase identifiers). -/
def snakeCase (s : String) : String :=
  ⟨s.data.foldr (fun c acc => if c.isUpper then '_' :: c.toLower :: acc else c :: acc) []⟩

/-- Escape of a string body for `JSON.stringify`. -/
def jsonEscape (s : String) : String :=
  ⟨s.data.foldr (fun c acc => if c = '"' || c = '\\' then '\\' :: c :: acc else c :: acc) []⟩

/-- `JSON.stringify` of a scalar value. -/
def jsonScalar : Scalar → String
  | .num n => if n < 0 then "-" ++ natStr n.natAbs else natStr n.natAbs
  | .str s => "\"" ++ jsonEscape s ++ "\""
  | .bool b => if b then "true" else "false"
  | .date iso => "\"" ++ iso ++ "\""

mutual

/-- `JSON.stringify` of a runtime value. -/
def jsonStringify : WhereValue → String
  | .wnull => "null"
  | .scalar v => jsonScalar v
  | .arr vs => "[" ++ String.intercalate "," (vs.map jsonScalar) ++ "]"
  | .nested m => "\x7b" ++ jsonStringifyFields m ++ "\x7d"
  | .comp op v =>
    let opName :=
      match op with
      | .greater => "greater"
      | .greaterOrEqual => "greaterOrEqual"
      | .less => "less"
      | .lessOrEqual => "lessOrEqual"
      | .not => "not"
    "\x7b\"_op\":\"" ++ opName ++ "\",\"value\":" ++
      (match v with
       | none => "null"
       | some sv => jsonScalar sv) ++ "\x7d"

/-- `JSON.stringify` of the entries of a nested object value. -/
def jsonStringifyFields : WhereFields → String
  | .nil => ""
  | .cons k v rest =>
    "\"" ++ jsonEscape k ++ "\":" ++ jsonStringify v ++
      (match rest with
       | .nil => ""
       | .cons _ _ _ => "," ++ jsonStringifyFields rest)

end

/-- Printing of runtime values for diagnostics. -/
instance : Repr WhereValue := ⟨fun v _ => Std.Format.text (jsonStringify v)⟩

/-- helpers.ts `getDatabaseName`: declared physical name if truthy, else the
snake-cased logical name, optionally table-qualified.  The source throws for a
field that is absent from the definition; claims only ever use present
fields, so an absent field falls back to the snake-cased name here. -/
def getDatabaseName (d : EntityDefinition) (field : String) (includeTableName : Bool) : String :=
  let base :=
    match lookupA d.fields field with
    | some fd =>
      match fd.name with
      | some n => if n = "" then snakeCase field else n
      | none => snakeCase field
    | none => snakeCase field
  if includeTableName then d.tableName ++ "." ++ base else base

/-- helpers.ts `getFieldList`: declaration-ordered `[quoted db name, ts name]`
pairs, optionally filtered to a subset. -/
def getFieldList (d : EntityDefinition) (fields : Option (List String)) : List (String × String) :=
  d.fields.filterMap fun kv =>
    match fields with
    | some fs => if fs.contains kv.1 then some ("\"" ++ getDatabaseName d kv.1 false ++ "\"", kv.1) else none
    | none => some ("\"" ++ getDatabaseName d kv.1 false ++ "\"", kv.1)

/-- helpers.ts `getSelectFields`: qualify and alias each field for a SELECT
projection. -/
def getSelectFields (fields : List (String × String)) (table : String) : List String :=
  fields.map fun kv => table ++ "." ++ kv.1 ++ " AS \"" ++ kv.2 ++ "\""

/-- helpers.ts `inferDatabaseType` applied to a runtime value: number, string and
boolean primitives map to `int`/`text`/`boolean`; objects with `toUTCString`
(dates) to `timestamptz`; every other object — including `null`, arrays,
comparison objects and plain nested objects — to `jsonb`. -/
def inferFromValue : WhereValue → String
  | .scalar (.num _) => "int"
  | .scalar (.str _) => "text"
  | .scalar (.bool _) => "boolean"
  | .scalar (.date _) => "timestamptz"
  | .wnull => "jsonb"
  | .arr _ => "jsonb"
  | .comp _ _ => "jsonb"
  | .nested _ => "jsonb"

/-- helpers.ts `getDatabaseType`: the declared type always wins; otherwise the
type is inferred from the sample value, and inference of `undefined`
(`none` here, e.g. the first element of an empty array) throws. -/
def getDatabaseTypeOpt (d : EntityDefinition) (field : String) (value : Option WhereValue) :
    Except String String :=
  match lookupA d.fields field with
  | some fd =>
    match fd.type with
    | some t => .ok t
    | none =>
      match value with
      | some v => .ok (inferFromValue v)
      | none => .error "Unable to infer postgres type for undefined"
  | none =>
    match value with
    | some v => .ok (inferFromValue v)
    | none => .error "Unable to infer postgres type for undefined"

/-- Result record shared by `comparisonToWhereClause` and `findOne`
(paramCount, whereParams, whereClause). -/
structure FindOneResult where
  paramCount : Nat
  whereParams : List WhereValue
  whereClause : String
deriving Repr

/-- comparaison.ts `comparisonToWhereClause`: operator fragment plus a
placeholder at the next counter position; a `null` comparison value consumes
no parameter (the placeholder then repeats the incoming counter). -/
def comparisonToWhereClause (op : CompOp) (value : Option Scalar) (paramCount : Nat) :
    FindOneResult :=
  let c :=
    match value with
    | none => paramCount
    | some _ => paramCount + 1
  let ps : List WhereValue :=
    match value with
    | none => []
    | some v => [.scalar v]
  let sym :=
    match op with
    | .greater => " > $"
    | .greaterOrEqual => " >= $"
    | .less => " < $"
    | .lessOrEqual => " <= $"
    | .not => " != $"
  ⟨c, ps, sym ++ natStr c⟩

/-- The column text used by the per-key resolver: alias-qualified
`"A".column` when a table alias `A` is given, else `table.column`. -/
def whereFieldName (d : EntityDefinition) (key : String) (tableAlias : Option String) : String :=
  match tableAlias with
  | some a => "\"" ++ a ++ "\"." ++ getDatabaseName d key false
  | none => getDatabaseName d key true

/-- find.ts `findOne`, the per-key resolver.  Dispatch order follows the
source: Comparison first (note that the source passes the comparison object
itself as the type sample, and calls `comparisonToWhereClause` without the
running `paramCount`, so the comparison placeholder is numbered from `0`),
then `null`, then arrays, then the equality fallback. -/
def findOne (d : EntityDefinition) (key : String) (value : WhereValue)
    (paramCount : Nat) (tableAlias : Option String) : Except String FindOneResult :=
  let dbFieldName := whereFieldName d key tableAlias
  match value with
  | .comp op cv =>
    match getDatabaseTypeOpt d key (some (.comp op cv)) with
    | .error e => .error e
    | .ok paramType =>
      let comparison := comparisonToWhereClause op cv 0
      .ok { comparison with whereClause := dbFieldName ++ comparison.whereClause ++ "::" ++ paramType }
  | .wnull => .ok ⟨paramCount, [], dbFieldName ++ " IS NULL"⟩
  | .arr vs =>
    match getDatabaseTypeOpt d key (vs.head?.map .scalar) with
    | .error e => .error e
    | .ok paramType =>
      .ok ⟨paramCount + 1, [.arr vs],
        dbFieldName ++ " = ANY($" ++ natStr (paramCount + 1) ++ "::" ++ paramType ++ "[])"⟩
  | v =>
    match getDatabaseTypeOpt d key (some v) with
    | .error e => .error e
    | .ok paramType =>
      .ok ⟨paramCount + 1, [v],
        dbFieldName ++ " = $" ++ natStr (paramCount + 1) ++ "::" ++ paramType⟩

/-- Result record of the filter compilers (whereClause, whereParams,
parameterCount). -/
structure FindResult where
  whereClause : String
  whereParams : List WhereValue
  parameterCount : Nat
deriving Repr

/-- Key loop of find.ts `find`: threads the parameter counter through
`findOne` and collects clause parts and parameters. -/
def findAux (d : EntityDefinition) (tableAlias : Option String) :
    WhereObject → Nat → Except String (List String × List WhereValue × Nat)
  | [], pc => .ok ([], [], pc)
  | (k, v) :: rest, pc =>
    match findOne d k v pc tableAlias with
    | .error e => .error e
    | .ok part =>
      match findAux d tableAlias rest part.paramCount with
      | .error e => .error e
      | .ok (parts, params, pc') => .ok (part.whereClause :: parts, part.whereParams ++ params, pc')

/-- find.ts `find`: the flat filter compiler.  Every key resolves against the
given definition; parts are joined by the boolean operator. -/
def find (d : EntityDefinition) (whereObject : WhereObject) (paramCountStart : Nat)
    (operator : String) (tableAlias : Option String) : Except String FindResult :=
  match findAux d tableAlias whereObject paramCountStart with
  | .error e => .error e
  | .ok (parts, params, pc) => .ok ⟨String.intercalate (" " ++ operator ++ " ") parts, params, pc⟩

/-- JS truthiness of a `WhereObject` value (`!paramValue`): `null`, `0`, the
empty string and `false` are falsy; arrays, dates, comparison objects and
nested objects are truthy. -/
def isFalsy : WhereValue → Bool
  | .wnull => true
  | .scalar (.num n) => n == 0
  | .scalar (.str s) => s == ""
  | .scalar (.bool b) => !b
  | _ => false

/-- types.ts `isComparison`: the value is an object carrying an `_op` tag. -/
def isComparisonV : WhereValue → Bool
  | .comp _ _ => true
  | _ => false

/-- `Array.isArray`. -/
def isArrayV : WhereValue → Bool
  | .arr _ => true
  | _ => false

/-- JS `for ... in` enumeration of a value, as used when the nested branch of
`findWithNesting` hands the value to the flat `find`: plain objects enumerate
their entries, strings enumerate their character indices, arrays their
element indices; numbers, booleans and dates have no enumerable properties. -/
def jsKeys : WhereValue → List (String × WhereValue)
  | .nested m => m.toList
  | .scalar (.str s) => s.data.enum.map fun ic => (natStr ic.1, .scalar (.str (String.singleton ic.2)))
  | .arr vs => vs.enum.map fun iv => (natStr iv.1, .scalar iv.2)
  | _ => []

/-- The alias → definition registry of one statement (types.ts
`QueryDefinitions`): the reserved `root` alias plus the joined aliases. -/
structure QueryDefs where
  root : EntityDefinition
  others : List (String × EntityDefinition)
deriving Repr

/-- Property access `definitions[key]` applied to the registry. -/
def QueryDefs.lookup (defs : QueryDefs) (k : String) : Option EntityDefinition :=
  if k = "root" then some defs.root else lookupA defs.others k

/-- Key loop of find.ts `findWithNesting`.  A key whose value is falsy, a
comparison or an array resolves via `findOne` against `root`; every other
value (truthy scalars included) is handed to the flat `find` against the
definition registered under the key's name.  When that definition is absent
the source only crashes if the value has enumerable properties, since the
definition is first dereferenced inside the key loop of `find`. -/
def findWithNestingAux (defs : QueryDefs) :
    WhereObject → Nat → Except String (List String × List WhereValue × Nat)
  | [], pc => .ok ([], [], pc)
  | (k, v) :: rest, pc =>
    let step : Except String (String × List WhereValue × Nat) :=
      if isFalsy v || isComparisonV v || isArrayV v then
        match findOne defs.root k v pc none with
        | .error e => .error e
        | .ok part => .ok (part.whereClause, part.whereParams, part.paramCount)
      else
        match defs.lookup k with
        | some d' =>
          match find d' (jsKeys v) pc "AND" (some k) with
          | .error e => .error e
          | .ok r => .ok (r.whereClause, r.whereParams, r.parameterCount)
        | none =>
          if (jsKeys v).isEmpty then .ok ("", [], pc)
          else .error "TypeError: Cannot read properties of undefined"
    match step with
    | .error e => .error e
    | .ok (clause, params, pc') =>
      match findWithNestingAux defs rest pc' with
      | .error e => .error e
      | .ok (parts, params', pc'') => .ok (clause :: parts, params ++ params', pc'')

/-- find.ts `findWithNesting`: the alias-aware filter compiler. -/
def findWithNesting (defs : QueryDefs) (whereObject : WhereObject) (paramCountStart : Nat)
    (operator : String) : Except String FindResult :=
  match findWithNestingAux defs whereObject paramCountStart with
  | .error e => .error e
  | .ok (parts, params, pc) => .ok ⟨String.intercalate (" " ++ operator ++ " ") parts, params, pc⟩

/-- A value of a `JoinOn` key (join.ts): `null`, a primitive, a `Date`, a
function, a same-statement `ref(field)` reference (`\x7b __ref \x7d` object),
or any other object — modelled as its enumerable (alias, field) entries. -/
inductive JoinValue where
  | jnull
  | scalar (v : Scalar)
  | date (iso : String)
  | func
  | ref (field : String)
  | nested (m : List (String × String))
deriving Repr, DecidableEq

/-- JS truthiness of a join value (`!joinObject`). -/
def jTruthy : JoinValue → Bool
  | .jnull => false
  | .scalar (.num n) => n != 0
  | .scalar (.str s) => s != ""
  | .scalar (.bool b) => b
  | .scalar (.date _) => true
  | _ => true

/-- `typeof joinObject === 'object'` for a truthy value (dates, refs and
plain objects are objects; primitives and functions are not). -/
def jIsObject : JoinValue → Bool
  | .scalar (.date _) => true
  | .date _ => true
  | .ref _ => true
  | .nested _ => true
  | _ => false

/-- `joinObject instanceof Date`. -/
def jIsDate : JoinValue → Bool
  | .scalar (.date _) => true
  | .date _ => true
  | _ => false

/-- join.ts `isRef`: the object's `__ref` property is truthy (an empty-string
field name is falsy and falls through to the nested-reference branch). -/
def jRefField : JoinValue → Option String
  | .ref f => if f = "" then none else some f
  | _ => none

/-- The enumerable (alias, field) entries seen by the nested-reference loop;
a `ref` whose `__ref` is falsy is enumerated as its literal property. -/
def jNestedPairs : JoinValue → List (String × String)
  | .nested m => m
  | .ref f => [("__ref", f)]
  | _ => []

/-- Errors of the join resolver: the `TypeError` from dereferencing an
unregistered alias, and the explicit `Unable to join field ...` throw. -/
inductive JoinErr where
  | typeError (tblAlias : String)
  | unableToJoin (field : String)
deriving Repr, DecidableEq

/-- Whether a join error is the explicit `Unable to join field ...` throw. -/
def JoinErr.isUnable : JoinErr → Bool
  | .unableToJoin _ => true
  | .typeError _ => false

/-- Whether a join-resolution outcome is the explicit
`Unable to join field ...` error. -/
def isUnableToJoin {α : Type} : Except JoinErr α → Bool
  | .error e => e.isUnable
  | .ok _ => false

/-- The nested-reference branch of the join resolver: one ON clause per
enumerated (alias, field) entry, crashing when the alias is unregistered. -/
def joinNestedClauses (defs : QueryDefs) (joinedTableFieldDBName : String) :
    List (String × String) → Except JoinErr (List String)
  | [] => .ok []
  | (alias2, field2) :: rest =>
    match defs.lookup alias2 with
    | none => .error (.typeError alias2)
    | some d' =>
      match joinNestedClauses defs joinedTableFieldDBName rest with
      | .error e => .error e
      | .ok cs =>
        .ok ((joinedTableFieldDBName ++ " = \"" ++ alias2 ++ "\"." ++ getDatabaseName d' field2 false) :: cs)

/-- One iteration of the ON-key loop of join.ts `join`, following the source's
dispatch order: falsy → `IS NULL`; non-object or `Date` → literal parameter;
truthy `__ref` → root-qualified reference; any remaining object → nested
alias reference; otherwise the `Unable to join field ...` throw.  Returns the
emitted ON clauses, the appended parameters and the updated counter. -/
def joinOne (jtd : EntityDefinition) (tblAlias : String) (defs : QueryDefs)
    (joinedTableField : String) (v : JoinValue) (paramCount : Nat) :
    Except JoinErr (List String × List JoinValue × Nat) :=
  let joinedTableFieldDBName := "\"" ++ tblAlias ++ "\"." ++ getDatabaseName jtd joinedTableField false
  if !jTruthy v then
    .ok ([joinedTableFieldDBName ++ " IS NULL"], [], paramCount)
  else if !jIsObject v || jIsDate v then
    .ok ([joinedTableFieldDBName ++ " = $" ++ natStr (paramCount + 1)], [v], paramCount + 1)
  else if (jRefField v).isSome then
    let referencedField := getDatabaseName defs.root ((jRefField v).getD "") true
    .ok ([joinedTableFieldDBName ++ " = " ++ referencedField], [], paramCount)
  else if jIsObject v then
    match joinNestedClauses defs joinedTableFieldDBName (jNestedPairs v) with
    | .error e => .error e
    | .ok cs => .ok (cs, [], paramCount)
  else
    .error (.unableToJoin joinedTableField)

/-- Result of join.ts `join`. -/
structure JoinResult where
  parameterCount : Nat
  joinFields : List String
  joinClause : String
  joinParams : List JoinValue
deriving Repr

/-- The ON-key loop of join.ts `join`. -/
def joinOnAux (jtd : EntityDefinition) (tblAlias : String) (defs : QueryDefs) :
    List (String × JoinValue) → Nat → Except JoinErr (List String × List JoinValue × Nat)
  | [], pc => .ok ([], [], pc)
  | (field, v) :: rest, pc =>
    match joinOne jtd tblAlias defs field v pc with
    | .error e => .error e
    | .ok (cs, ps, pc') =>
      match joinOnAux jtd tblAlias defs rest pc' with
      | .error e => .error e
      | .ok (cs', ps', pc'') => .ok (cs ++ cs', ps ++ ps', pc'')

/-- join.ts `join`: the join resolver.  `fields` maps caller-chosen output
names to joined-table fields; the projection aliases each selected physical
column to its output name. -/
def join (type : String) (jtd : EntityDefinition) (tblAlias : String) (defs : QueryDefs)
    (onObject : List (String × JoinValue)) (paramCountStart : Nat)
    (fields : List (String × String)) (onOperator : String) : Except JoinErr JoinResult :=
  let fieldsMap := (fields.map fun kv => (kv.2, kv.1)).reverse
  let joinFields :=
    (getFieldList jtd (some (fields.map (·.2)))).map fun nm =>
      "\"" ++ tblAlias ++ "\"." ++ nm.1 ++ " as \"" ++ ((lookupA fieldsMap nm.2).getD "undefined") ++ "\""
  match joinOnAux jtd tblAlias defs onObject paramCountStart with
  | .error e => .error e
  | .ok (onClauses, joinParams, pc) =>
    .ok ⟨pc, joinFields,
      " " ++ type ++ " " ++ jtd.tableName ++ " \"" ++ tblAlias ++ "\" ON (" ++
        String.intercalate (" " ++ onOperator ++ " ") onClauses ++ ")",
      joinParams⟩

/-- An entry of a statement's ordered argument list: a filter parameter, a
join parameter, or a LIMIT/OFFSET number. -/
inductive QueryParam where
  | w (v : WhereValue)
  | j (v : JoinValue)
  | int (v : Int)
deriving Repr

/-- select.ts `SelectQuery`: the accumulator mutated by the chained calls. -/
structure SelectQuery where
  whereClause : Option String := none
  params : List QueryParam := []
  joinClauses : List String := []
  parameterCount : Nat := 0
  selectFields : List String := []
  orderBy : Option (List String) := none
  order : Option String := none
  limit : Option Int := none
  offset : Option Int := none
  groupBy : Option (List String) := none
deriving Repr

/-- select.ts `Select`: the definitions registry (seeded with `root`) plus the
accumulator. -/
structure Select where
  definitions : QueryDefs
  query : SelectQuery
deriving Repr

/-- The `Select` constructor: seeds the registry with `root` and projects the
given fields, or all declared fields when none are given. -/
def mkSelect (d : EntityDefinition) (fields : List (String × String)) : Select :=
  ⟨⟨d, []⟩,
    { selectFields := getSelectFields (if fields.isEmpty then getFieldList d none else fields) d.tableName }⟩

/-- select.ts `Select._where`: stores the clause text, appends the parameters
and advances the counter by the number of appended parameters. -/
def Select.whereRaw (s : Select) (whereClause : String) (whereParams : List WhereValue) : Select :=
  { s with query := { s.query with
      whereClause := some whereClause,
      params := s.query.params ++ whereParams.map .w,
      parameterCount := s.query.parameterCount + whereParams.length } }

/-- select.ts `Select.where`: compiles the filter with `findWithNesting` from
the current counter, then delegates to `_where`. -/
def Select.whereObj (s : Select) (whereObject : WhereObject) (operator : String) :
    Except String Select :=
  match findWithNesting s.definitions whereObject s.query.parameterCount operator with
  | .error e => .error e
  | .ok r => .ok (s.whereRaw r.whereClause r.whereParams)

/-- select.ts `Select.join` / `Select.leftJoin`: resolves the join from the
current counter, appends projection and clause, adopts the returned counter
and registers the alias. -/
def Select.joinOn (s : Select) (type : String) (otherDef : EntityDefinition) (tblAlias : String)
    (onObject : List (String × JoinValue)) (fields : List (String × String)) (onOperator : String) :
    Except JoinErr Select :=
  match join type otherDef tblAlias s.definitions onObject s.query.parameterCount fields onOperator with
  | .error e => .error e
  | .ok r =>
    .ok { s with
      definitions := ⟨s.definitions.root, s.definitions.others ++ [(tblAlias, otherDef)]⟩,
      query := { s.query with
        selectFields := s.query.selectFields ++ r.joinFields,
        joinClauses := s.query.joinClauses ++ [r.joinClause],
        parameterCount := r.parameterCount,
        params := s.query.params ++ r.joinParams.map .j } }

/-- select.ts `Select.limit`. -/
def Select.limitFn (s : Select) (n : Int) : Select :=
  { s with query := { s.query with limit := some n } }

/-- select.ts `Select.offset`. -/
def Select.offsetFn (s : Select) (n : Int) : Select :=
  { s with query := { s.query with offset := some n } }

/-- select.ts `Select.groupBy`. -/
def Select.groupByFn (s : Select) (keys : List String) : Select :=
  { s with query := { s.query with groupBy := some keys } }

/-- select.ts `Select.orderBy`. -/
def Select.orderByFn (s : Select) (keys : List String) : Select :=
  { s with query := { s.query with orderBy := some keys } }

/-- JS truthiness of an optional numeric field (`if (limit)`): absent or zero
is falsy. -/
def jsTruthyNum : Option Int → Bool
  | none => false
  | some n => n != 0

/-- select.ts `isEntityField`: the key names a declared field of the root
definition. -/
def isEntityField (key : String) (d : EntityDefinition) : Bool :=
  (lookupA d.fields key).isSome

/-- A GROUP BY / ORDER BY item: a declared root field is table-qualified,
anything else is double-quoted. -/
def orderItem (d : EntityDefinition) (field : String) : String :=
  if isEntityField field d then getDatabaseName d field true else "\"" ++ field ++ "\""

/-- select.ts `Select.execute`, up to the executor hand-off: serializes the
accumulator into the statement text and the ordered argument list.  LIMIT and
OFFSET are appended last, in that order, each consuming the next counter
position when its value is truthy. -/
def Select.executeStr (s : Select) : String × List QueryParam :=
  let q := s.query
  let base := "SELECT " ++ String.intercalate ", " q.selectFields ++ " FROM " ++ s.definitions.root.tableName
  let base := base ++ String.join q.joinClauses
  let base := base ++ (if (q.whereClause.getD "") = "" then "" else " WHERE " ++ q.whereClause.getD "")
  let base := base ++
    (match q.groupBy with
     | none => ""
     | some keys => " GROUP BY " ++ String.intercalate ", " (keys.map (orderItem s.definitions.root)))
  let base := base ++
    (match q.orderBy with
     | none => ""
     | some keys =>
       " ORDER BY " ++ String.intercalate "," (keys.map (orderItem s.definitions.root)) ++
         (match q.order with
          | none => ""
          | some o => " " ++ o))
  let pc1 := if jsTruthyNum q.limit then q.parameterCount + 1 else q.parameterCount
  let base := base ++ (if jsTruthyNum q.limit then " LIMIT $" ++ natStr pc1 else "")
  let pc2 := if jsTruthyNum q.offset then pc1 + 1 else pc1
  let base := base ++ (if jsTruthyNum q.offset then " OFFSET $" ++ natStr pc2 else "")
  let allParams := q.params ++
    (if jsTruthyNum q.limit then [QueryParam.int (q.limit.getD 0)] else []) ++
    (if jsTruthyNum q.offset then [QueryParam.int (q.offset.getD 0)] else [])
  (base, allParams)

/-- delete.ts `DeleteQuery`. -/
structure DeleteQuery where
  returnFields : List String := []
  whereClause : Option String := none
  whereParams : List WhereValue := []
  parameterCount : Nat := 0
deriving Repr

/-- delete.ts `Delete`. -/
structure Delete where
  definition : EntityDefinition
  query : DeleteQuery
deriving Repr

/-- The `Delete` constructor: only collects the RETURNING projection (every
declared field, aliased to its logical name). -/
def mkDelete (d : EntityDefinition) : Delete :=
  ⟨d, { returnFields := (getFieldList d none).map fun nm => nm.1 ++ " AS \"" ++ nm.2 ++ "\"" }⟩

/-- delete.ts `Delete.where` (the `WhereObject` overload): compiles the filter
from the current counter with the flat `find` and replaces the accumulator's
whereClause, whereParams and parameterCount with the result. -/
def Delete.whereObj (dq : Delete) (whereObject : WhereObject) : Except String Delete :=
  match find dq.definition whereObject dq.query.parameterCount "AND" none with
  | .error e => .error e
  | .ok r =>
    .ok { dq with query := { dq.query with
      whereClause := some r.whereClause,
      whereParams := r.whereParams,
      parameterCount := r.parameterCount } }

/-- delete.ts `Delete.execute`, up to the executor hand-off. -/
def Delete.executeStr (dq : Delete) : String × List WhereValue :=
  let base := "DELETE FROM " ++ dq.definition.tableName
  let base := base ++
    (if (dq.query.whereClause.getD "") = "" then "" else " WHERE " ++ dq.query.whereClause.getD "")
  (base ++ " RETURNING " ++ String.intercalate ", " dq.query.returnFields, dq.query.whereParams)

/-- The `UpdateQuery` accumulator. -/
structure UpdateQuery where
  updateFields : List String := []
  updateParams : List WhereValue := []
  returnFields : List String := []
  whereClause : Option String := none
  whereParams : List WhereValue := []
  parameterCount : Nat := 0
deriving Repr

/-- The `Update` builder. -/
structure Update where
  definition : EntityDefinition
  query : UpdateQuery
deriving Repr

/-- Field loop of the `Update` constructor: every declared field is returned;
a field present in the partial entity binds one cast placeholder
(`jsonb`-typed values are serialized to text first), an absent field is
skipped entirely. -/
def mkUpdateAux (d : EntityDefinition) (newEntity : List (String × WhereValue)) :
    List (String × String) → Nat → Except String (List String × List WhereValue × List String × Nat)
  | [], pc => .ok ([], [], [], pc)
  | (dbName, tsName) :: rest, pc =>
    let retField := dbName ++ " AS \"" ++ tsName ++ "\""
    match lookupA newEntity tsName with
    | none =>
      match mkUpdateAux d newEntity rest pc with
      | .error e => .error e
      | .ok (ufs, ups, rets, pc') => .ok (ufs, ups, retField :: rets, pc')
    | some v =>
      match getDatabaseTypeOpt d tsName (some v) with
      | .error e => .error e
      | .ok databaseType =>
        let param := if databaseType = "jsonb" then WhereValue.scalar (.str (jsonStringify v)) else v
        let uf := dbName ++ " = $" ++ natStr (pc + 1) ++ "::" ++ databaseType
        match mkUpdateAux d newEntity rest (pc + 1) with
        | .error e => .error e
        | .ok (ufs, ups, rets, pc') => .ok (uf :: ufs, param :: ups, retField :: rets, pc')

/-- The `Update` constructor. -/
def mkUpdate (d : EntityDefinition) (newEntity : List (String × WhereValue)) :
    Except String Update :=
  match mkUpdateAux d newEntity (getFieldList d none) 0 with
  | .error e => .error e
  | .ok (ufs, ups, rets, pc) =>
    .ok ⟨d, { updateFields := ufs, updateParams := ups, returnFields := rets, parameterCount := pc }⟩

/-- `Update.where` (the `WhereObject` overload): same overwrite-and-continue
behaviour as `Delete.where`. -/
def Update.whereObj (u : Update) (whereObject : WhereObject) : Except String Update :=
  match find u.definition whereObject u.query.parameterCount "AND" none with
  | .error e => .error e
  | .ok r =>
    .ok { u with query := { u.query with
      whereClause := some r.whereClause,
      whereParams := r.whereParams,
      parameterCount := r.parameterCount } }

/-- `Update.execute`, up to the executor hand-off: SET parameters first, then
the filter parameters. -/
def Update.executeStr (u : Update) : String × List WhereValue :=
  let base := "UPDATE " ++ u.definition.tableName ++ " SET " ++
    String.intercalate ", " u.query.updateFields
  let base := base ++
    (if (u.query.whereClause.getD "") = "" then "" else " WHERE " ++ u.query.whereClause.getD "")
  (base ++ " RETURNING " ++ String.intercalate ", " u.query.returnFields,
    u.query.updateParams ++ u.query.whereParams)

/-- A bound insert parameter: one value for single mode, one column of values
for bulk mode (`none` is a SQL `null`, from an absent or `null` field). -/
inductive InsParam where
  | one (v : Option WhereValue)
  | col (vs : List (Option WhereValue))
deriving Repr

/-- insert.ts `InsertQuery`. -/
structure InsertQuery where
  insertPlaceholders : List String := []
  insertParams : List InsParam := []
  insertFields : List String := []
  returnFields : List String := []
  conflictClause : String := ""
  isBulk : Bool := false
deriving Repr

/-- insert.ts `Insert`. -/
structure Insert where
  definition : EntityDefinition
  query : InsertQuery
deriving Repr

/-- The constructor input: a single entity or a bulk array of entities; an
absent key models an `undefined` field. -/
inductive InsertInput where
  | single (e : List (String × WhereValue))
  | bulk (es : List (List (String × WhereValue)))
deriving Repr

/-- insert.ts `getParameter`: `null`/`undefined` binds SQL `null`,
`jsonb`-typed values are serialized to text, anything else binds as is. -/
def getParameter (databaseType : String) (value : Option WhereValue) : Option WhereValue :=
  match value with
  | none => none
  | some .wnull => none
  | some v => if databaseType = "jsonb" then some (.scalar (.str (jsonStringify v))) else some v

/-- Field loop of the `Insert` constructor in bulk mode: the column set and
each column's cast type are taken from the first row's present keys only. -/
def mkInsertBulkAux (d : EntityDefinition) (es : List (List (String × WhereValue))) :
    List (String × String) → Nat →
    Except String (List String × List InsParam × List String × List String)
  | [], _ => .ok ([], [], [], [])
  | (dbName, tsName) :: rest, pc =>
    let retField := dbName ++ " AS \"" ++ tsName ++ "\""
    match lookupA (es.headD []) tsName with
    | none =>
      match mkInsertBulkAux d es rest pc with
      | .error e => .error e
      | .ok (phs, ps, fs, rets) => .ok (phs, ps, fs, retField :: rets)
    | some v0 =>
      match getDatabaseTypeOpt d tsName (some v0) with
      | .error e => .error e
      | .ok databaseType =>
        match mkInsertBulkAux d es rest (pc + 1) with
        | .error e => .error e
        | .ok (phs, ps, fs, rets) =>
          .ok (("$" ++ natStr (pc + 1) ++ "::" ++ databaseType ++ "[]") :: phs,
            (InsParam.col (es.map fun e => getParameter databaseType (lookupA e tsName))) :: ps,
            dbName :: fs, retField :: rets)

/-- Field loop of the `Insert` constructor in single mode. -/
def mkInsertSingleAux (d : EntityDefinition) (e : List (String × WhereValue)) :
    List (String × String) → Nat →
    Except String (List String × List InsParam × List String × List String)
  | [], _ => .ok ([], [], [], [])
  | (dbName, tsName) :: rest, pc =>
    let retField := dbName ++ " AS \"" ++ tsName ++ "\""
    match lookupA e tsName with
    | none =>
      match mkInsertSingleAux d e rest pc with
      | .error er => .error er
      | .ok (phs, ps, fs, rets) => .ok (phs, ps, fs, retField :: rets)
    | some v =>
      match getDatabaseTypeOpt d tsName (some v) with
      | .error er => .error er
      | .ok databaseType =>
        match mkInsertSingleAux d e rest (pc + 1) with
        | .error er => .error er
        | .ok (phs, ps, fs, rets) =>
          .ok (("$" ++ natStr (pc + 1) ++ "::" ++ databaseType) :: phs,
            (InsParam.one (getParameter databaseType (some v))) :: ps,
            dbName :: fs, retField :: rets)

/-- The `Insert` constructor: an empty bulk input returns the untouched empty
accumulator before the field loop runs. -/
def mkInsert (d : EntityDefinition) (input : InsertInput) : Except String Insert :=
  match input with
  | .bulk es =>
    if es.isEmpty then .ok ⟨d, {}⟩
    else
      match mkInsertBulkAux d es (getFieldList d none) 0 with
      | .error e => .error e
      | .ok (phs, ps, fs, rets) =>
        .ok ⟨d,
          { insertPlaceholders := phs, insertParams := ps, insertFields := fs,
            returnFields := rets, isBulk := true }⟩
  | .single e =>
    match mkInsertSingleAux d e (getFieldList d none) 0 with
    | .error er => .error er
    | .ok (phs, ps, fs, rets) =>
      .ok ⟨d,
        { insertPlaceholders := phs, insertParams := ps, insertFields := fs,
          returnFields := rets, isBulk := false }⟩

/-- Outcome of insert.ts `Insert.execute`: either the short-circuited
zero-row result that never reaches the executor, or the executor call. -/
inductive InsertExec where
  | immediate (rows : List Unit) (rowCount : Nat)
  | call (text : String) (args : List InsParam)
deriving Repr

/-- insert.ts `Insert.execute`: an empty parameter list short-circuits to the
`rows: [], rowCount: 0` result without touching the executor. -/
def Insert.executeRes (i : Insert) : InsertExec :=
  if i.query.insertParams.isEmpty then .immediate [] 0
  else
    let selectStatement :=
      if i.query.isBulk then
        "SELECT * FROM unnest(" ++ String.intercalate ", " i.query.insertPlaceholders ++ ")"
      else "SELECT " ++ String.intercalate ", " i.query.insertPlaceholders
    .call
      ("INSERT INTO " ++ i.definition.tableName ++ " (" ++
        String.intercalate ", " i.query.insertFields ++ ") " ++ selectStatement ++ " " ++
        i.query.conflictClause ++ " RETURNING " ++ String.intercalate ", " i.query.returnFields)
      i.query.insertParams

/-- Whether a character is a decimal digit. -/
def isDigitC (c : Char) : Bool := '0' ≤ c && c ≤ '9'

/-- The number denoted by a list of decimal digit characters. -/
def digitsToNat (ds : List Char) : Nat :=
  ds.foldl (fun a c => 10 * a + (c.toNat - 48)) 0

/-- Scanner for positional placeholders `$<digits>` in statement text: walks
the characters maintaining the digits (reversed) collected since the last
`$`, emitting a number whenever a digit run ends. -/
def phRun : List Char → Option (List Char) → List Nat × Option (List Char)
  | [], st => ([], st)
  | c :: cs, none => if c = '$' then phRun cs (some []) else phRun cs none
  | c :: cs, some ds =>
    if isDigitC c then phRun cs (some (c :: ds))
    else
      let rest := if c = '$' then phRun cs (some []) else phRun cs none
      if ds.isEmpty then rest else (digitsToNat ds.reverse :: rest.1, rest.2)

/-- The number emitted by a digit run still open at the end of the text. -/
def phFlush : Option (List Char) → List Nat
  | none => []
  | some ds => if ds.isEmpty then [] else [digitsToNat ds.reverse]

/-- The positional placeholders `$<n>` occurring in a string, in textual
order. -/
def placeholders (s : String) : List Nat :=
  (phRun s.data none).1 ++ phFlush (phRun s.data none).2

/-- Whether the first list is an initial segment of the second. -/
def startsWithL : List Char → List Char → Bool
  | [], _ => true
  | _ :: _, [] => false
  | c :: cs, d :: ds => c == d && startsWithL cs ds

/-- Whether the needle occurs as a contiguous substring of the haystack. -/
def containsSubList : List Char → List Char → Bool
  | [], needle => needle.isEmpty
  | c :: cs, needle => startsWithL needle (c :: cs) || containsSubList cs needle

/-- Whether `sub` occurs as a contiguous substring of `s`. -/
def containsSub (s sub : String) : Bool := containsSubList s.data sub.data

/-- A field declared with SQL type `int`, used by the concrete fixtures. -/
def intField : FieldDefinition := { type := some "int" }

/-- Concrete root entity used by witnesses and counterexamples. -/
def testDef : EntityDefinition := ⟨"test_table", "id", [("a", intField), ("b", intField)]⟩

/-- Concrete joined entity used by witnesses and counterexamples. -/
def otherDef : EntityDefinition := ⟨"other_table", "id", [("x", intField), ("y", intField)]⟩

/-- `phRun` distributes over list concatenation, threading the scanner
state. -/
theorem phRun_append (a b : List Char) : ∀ st : Option (List Char),
    phRun (a ++ b) st =
      ((phRun a st).1 ++ (phRun b (phRun a st).2).1, (phRun b (phRun a st).2).2) := by
  induction a with
  | nil => intro st; simp [phRun]
  | cons c a' ih =>
    intro st
    cases st with
    | none =>
      by_cases hc : c = '$' <;> simp [phRun, hc, ih]
    | some ds =>
      by_cases hd : isDigitC c
      · simp [phRun, hd, ih]
      · by_cases hc : c = '$'
        · subst hc
          by_cases he : ds.isEmpty <;> simp [phRun, hd, he, ih]
        · by_cases he : ds.isEmpty <;> simp [phRun, hd, hc, he, ih]

/-- At a non-digit character the scanner's pending digit run is emitted and
the remaining scan is independent of the incoming state. -/
theorem phRun_nondigit (c : Char) (cs : List Char) (st : Option (List Char))
    (h : isDigitC c = false) :
    phRun (c :: cs) st = (phFlush st ++ (phRun (c :: cs) none).1, (phRun (c :: cs) none).2) := by
  cases st with
  | none => simp [phFlush]
  | some ds =>
    by_cases hc : c = '$'
    · subst hc
      by_cases he : ds.isEmpty <;> simp [phRun, phFlush, h, he]
    · by_cases he : ds.isEmpty <;> simp [phRun, phFlush, h, hc, he]

/-- Placeholder extraction distributes over string concatenation when the
second string does not start with a digit. -/
theorem placeholders_append (a b : String)
    (h : ∀ c cs, b.data = c :: cs → isDigitC c = false) :
    placeholders (a ++ b) = placeholders a ++ placeholders b := by
  have hdata : (a ++ b).data = a.data ++ b.data := String.data_append a b
  unfold placeholders
  rw [hdata, phRun_append]
  cases hb : b.data with
  | nil => simp [phRun, phFlush]
  | cons c cs =>
    rw [phRun_nondigit c cs _ (h c cs hb)]
    simp [List.append_assoc]

/-- The scanner consumes a digit run by pushing it onto the pending state. -/
theorem phRun_digits (ds : List Char) (h : ∀ c ∈ ds, isDigitC c = true) :
    ∀ (acc : List Char) (rest : List Char),
      phRun (ds ++ rest) (some acc) = phRun rest (some (ds.reverse ++ acc)) := by
  induction ds with
  | nil => intro acc rest; simp
  | cons c ds' ih =>
    intro acc rest
    have hc : isDigitC c = true := h c (by simp)
    have hds' : ∀ x ∈ ds', isDigitC x = true := fun x hx => h x (by simp [hx])
    simp [phRun, hc, ih hds', List.append_assoc]

/-- For digits below ten, `Nat.digitChar` renders the expected code point. -/
theorem digitChar_toNat : ∀ k < 10, (Nat.digitChar k).toNat = 48 + k := by decide

/-- For digits below ten, `Nat.digitChar` renders a decimal digit. -/
theorem digitChar_isDigit : ∀ k < 10, isDigitC (Nat.digitChar k) = true := by decide

/-- Appending one character to a digit list multiplies the denoted number by
ten and adds the new digit. -/
theorem digitsToNat_concat (a : List Char) (c : Char) :
    digitsToNat (a ++ [c]) = 10 * digitsToNat a + (c.toNat - 48) := by
  simp [digitsToNat, List.foldl_append]

/-- With sufficient fuel, `natDigitsAux` produces only decimal digits. -/
theorem natDigitsAux_digits : ∀ f n, n < f → ∀ c ∈ natDigitsAux f n, isDigitC c = true := by
  intro f
  induction f with
  | zero => intro n h; omega
  | succ f ih =>
    intro n h c hc
    by_cases h10 : n < 10
    · simp [natDigitsAux, h10] at hc
      subst hc
      exact digitChar_isDigit n h10
    · have hrec : n / 10 < f := by
        have h1 : n / 10 < n := Nat.div_lt_self (by omega) (by omega)
        omega
      simp [natDigitsAux, h10] at hc
      rcases hc with hc | hc
      · exact ih (n / 10) hrec c hc
      · subst hc
        exact digitChar_isDigit (n % 10) (Nat.mod_lt n (by omega))

/-- With sufficient fuel, `natDigitsAux` is non-empty. -/
theorem natDigitsAux_ne_nil : ∀ f n, n < f → natDigitsAux f n ≠ [] := by
  intro f
  induction f with
  | zero => intro n h; omega
  | succ f _ =>
    intro n _
    by_cases h10 : n < 10 <;> simp [natDigitsAux, h10]

/-- With sufficient fuel, `natDigitsAux` denotes the number it renders. -/
theorem digitsToNat_natDigitsAux : ∀ f n, n < f → digitsToNat (natDigitsAux f n) = n := by
  intro f
  induction f with
  | zero => intro n h; omega
  | succ f ih =>
    intro n h
    by_cases h10 : n < 10
    · have hd := digitChar_toNat n h10
      simp [natDigitsAux, h10, digitsToNat]
      omega
    · have hrec : n / 10 < f := by
        have h1 : n / 10 < n := Nat.div_lt_self (by omega) (by omega)
        omega
      rw [natDigitsAux]
      simp only [h10, if_false]
      rw [digitsToNat_concat, ih (n / 10) hrec, digitChar_toNat (n % 10) (Nat.mod_lt n (by omega))]
      omega

/-- The decimal rendering of `n` consists of digits. -/
theorem natStr_digits (n : Nat) : ∀ c ∈ (natStr n).data, isDigitC c = true :=
  natDigitsAux_digits (n + 1) n (Nat.lt_succ_self n)

/-- The decimal rendering of `n` is non-empty. -/
theorem natStr_ne_nil (n : Nat) : (natStr n).data ≠ [] :=
  natDigitsAux_ne_nil (n + 1) n (Nat.lt_succ_self n)

/-- The decimal rendering of `n` denotes `n`. -/
theorem digitsToNat_natStr (n : Nat) : digitsToNat (natStr n).data = n :=
  digitsToNat_natDigitsAux (n + 1) n (Nat.lt_succ_self n)

/-- An open digit state holding the reversed rendering of `n` flushes to
`[n]`. -/
theorem phFlush_natStr (n : Nat) : phFlush (some ((natStr n).data.reverse)) = [n] := by
  have hemp : ((natStr n).data.reverse).isEmpty = false := by
    cases hd : (natStr n).data with
    | nil => exact absurd hd (natStr_ne_nil n)
    | cons c cs => simp [hd]
  simp [phFlush, hemp, List.reverse_reverse, digitsToNat_natStr]

/-- Scanning the decimal rendering of `n` from a fresh digit state leaves the
digits pending and emits nothing. -/
theorem phRun_natStr (n : Nat) :
    phRun (natStr n).data (some []) = ([], some ((natStr n).data.reverse ++ [])) := by
  have h := phRun_digits (natStr n).data (natStr_digits n) [] []
  simpa [phRun] using h

/-- The LIMIT/OFFSET suffix contributes exactly its two placeholder
numbers. -/
theorem placeholders_limit_offset (a b : Nat) :
    placeholders (" LIMIT $" ++ natStr a ++ " OFFSET $" ++ natStr b) = [a, b] := by
  have hA : phRun (" LIMIT $").data none = ([], some []) := rfl
  have hC0 : phRun (" OFFSET $").data none = ([], some []) := rfl
  have hCcons : (" OFFSET $").data = ' ' :: ("OFFSET $").data := rfl
  have hdata : (" LIMIT $" ++ natStr a ++ " OFFSET $" ++ natStr b).data =
      (" LIMIT $").data ++ ((natStr a).data ++ ((" OFFSET $").data ++ (natStr b).data)) := by
    simp [String.data_append]
  have hB := phRun_digits (natStr a).data (natStr_digits a) []
      ((" OFFSET $").data ++ (natStr b).data)
  have hC : phRun (" OFFSET $").data (some ((natStr a).data.reverse ++ [])) =
      ([a], some []) := by
    rw [hCcons, phRun_nondigit ' ' ("OFFSET $").data _ (by rfl), ← hCcons, hC0]
    simp [phFlush_natStr]
  have hCD : phRun ((" OFFSET $").data ++ (natStr b).data)
      (some ((natStr a).data.reverse ++ [])) =
      ([a], some ((natStr b).data.reverse ++ [])) := by
    rw [phRun_append, hC]
    simp [phRun_natStr]
  unfold placeholders
  rw [hdata, phRun_append, hA]
  simp only [List.nil_append]
  rw [hB, hCD]
  simp [phFlush_natStr]

/-- C7: For every WhereObject key whose value is `null`, the filter compiler
emits `<column> IS NULL` for that key, appends nothing to the argument list,
and leaves the parameter counter unchanged — stated for the per-key resolver
`findOne` and for the flat compiler `find` on a single null-valued key. -/
theorem findOne_null_is_null_no_param (d : EntityDefinition) (key : String) (pc : Nat)
    (tableAlias : Option String) :
    findOne d key .wnull pc tableAlias =
      .ok ⟨pc, [], whereFieldName d key tableAlias ++ " IS NULL"⟩ ∧
    find d [(key, .wnull)] pc "AND" tableAlias =
      .ok ⟨whereFieldName d key tableAlias ++ " IS NULL", [], pc⟩ := by
  constructor
  · rfl
  · rfl

/-- C8: Constructing an `Insert` from an empty array and calling execute
returns the zero-row result (`rows: []`, `rowCount: 0`) without ever invoking
the executor collaborator. -/
theorem insert_empty_bulk_short_circuits (d : EntityDefinition) :
    (mkInsert d (.bulk [])).map Insert.executeRes = .ok (.immediate [] 0) := rfl

/-- C9: Whenever a builder's accumulated where clause is the empty string, the
serialized statement contains no WHERE keyword: a `Delete` or a fresh `Select`
given an empty WhereObject serializes exactly as without the where call, and
the concrete delete statement contains no `WHERE` substring. -/
theorem empty_where_omits_where_keyword :
    (∀ d : EntityDefinition,
      ((mkDelete d).whereObj []).map Delete.executeStr = .ok (mkDelete d).executeStr) ∧
    (∀ (d : EntityDefinition) (fields : List (String × String)),
      ((mkSelect d fields).whereObj [] "AND").map Select.executeStr
        = .ok (mkSelect d fields).executeStr) ∧
    ((mkDelete testDef).whereObj []).map (fun dq => containsSub dq.executeStr.1 "WHERE")
      = .ok false := by
  exact ⟨fun d => rfl, fun d fields => rfl, rfl⟩

/-- C10 (amended): `limit(0)` and `offset(0)` serialize exactly as an unset
limit/offset — no clause is emitted and no parameter is consumed; in
particular, on a builder with no other limit/offset call the statement and
arguments equal those without the call. -/
theorem limit_zero_serializes_as_unset (s : Select) :
    (s.limitFn 0).executeStr
      = { s with query := { s.query with limit := none } }.executeStr ∧
    (s.offsetFn 0).executeStr
      = { s with query := { s.query with offset := none } }.executeStr := by
  constructor <;>
    simp [Select.limitFn, Select.offsetFn, Select.executeStr, jsTruthyNum]

/-- C10 counterexample: after `limit(5)`, the further call `limit(0)` changes
the serialized statement — it is not the statement of the same builder
without the `limit(0)` call, which still ends in `LIMIT $1`. -/
theorem limit_zero_after_limit_five_differs :
    ((((mkSelect testDef []).limitFn 5).limitFn 0).executeStr.1
      == ((mkSelect testDef []).limitFn 5).executeStr.1) = false := rfl

/-- C1 (code-bug exhibit): in the flat compiler a Comparison key's placeholder
restarts at `$1` because the source omits the running counter when calling
`comparisonToWhereClause`; on two keys with `paramCountStart = 0` the emitted
placeholders are `$1, $1` instead of `$1, $2`, and the returned counter is 1
although two arguments were collected. -/
theorem find_comparison_resets_param_numbering :
    find testDef [("a", .scalar (.num 1)), ("b", .comp .greater (some (.num 2)))] 0 "AND" none
      = .ok ⟨"test_table.a = $1::int AND test_table.b > $1::int",
          [.scalar (.num 1), .scalar (.num 2)], 1⟩ ∧
    placeholders "test_table.a = $1::int AND test_table.b > $1::int" = [1, 1] := by
  constructor
  · rfl
  · rfl

/-- C2 (code-bug exhibit): after `.where()` with a falsy scalar and a
Comparison, the Select accumulator's parameterCount is 2 while the serialized
statement's placeholders are `$1, $1` — not unique and not contiguous, so the
claimed invariant and its consequence fail. -/
theorem select_where_comparison_breaks_invariant :
    ((mkSelect testDef []).whereObj
        [("a", .scalar (.num 0)), ("b", .comp .greater (some (.num 2)))] "AND").map
      (fun s => (s.query.parameterCount, placeholders s.executeStr.1))
      = .ok (2, [1, 1]) := rfl

/-- C4 (code-bug exhibit): `findWithNesting` routes the truthy scalar `16`
into the nested-sub-filter branch, producing an empty clause with no
parameter, while resolution against the root table (as claimed, and as the
flat compiler does) would produce `test_table.a = $1::int`; consequently a
Select filtered on `a = 16` serializes with no WHERE clause at all. -/
theorem findWithNesting_truthy_scalar_not_root :
    findWithNesting ⟨testDef, []⟩ [("a", .scalar (.num 16))] 0 "AND" = .ok ⟨"", [], 0⟩ ∧
    find testDef [("a", .scalar (.num 16))] 0 "AND" none
      = .ok ⟨"test_table.a = $1::int", [.scalar (.num 16)], 1⟩ ∧
    ((mkSelect testDef []).whereObj [("a", .scalar (.num 16))] "AND").map
        (fun s => s.executeStr.1) = .ok (mkSelect testDef []).executeStr.1 := by
  refine ⟨rfl, rfl, rfl⟩

/-- C3 (amended): a second `.where()` call overwrites the filter text — only
the second filter's predicates appear — but the parameter bookkeeping of the
first call persists: the second clause is compiled from the counter left by
the first call; `Delete` and `Update` replace the filter arguments with the
second call's parameters, while `Select` keeps the first call's parameters in
the argument list and advances the counter by the appended count. -/
theorem second_where_overwrites_with_continued_counter
    (dq : Delete) (u : Update) (s : Select) (w1 w2 : WhereObject) (op1 op2 : String) :
    ((dq.whereObj w1).bind (fun x => x.whereObj w2)
      = (find dq.definition w1 dq.query.parameterCount "AND" none).bind (fun r1 =>
          (find dq.definition w2 r1.parameterCount "AND" none).map (fun r2 =>
            { dq with query := { dq.query with
                whereClause := some r2.whereClause, whereParams := r2.whereParams,
                parameterCount := r2.parameterCount } }))) ∧
    ((u.whereObj w1).bind (fun x => x.whereObj w2)
      = (find u.definition w1 u.query.parameterCount "AND" none).bind (fun r1 =>
          (find u.definition w2 r1.parameterCount "AND" none).map (fun r2 =>
            { u with query := { u.query with
                whereClause := some r2.whereClause, whereParams := r2.whereParams,
                parameterCount := r2.parameterCount } }))) ∧
    ((s.whereObj w1 op1).bind (fun x => x.whereObj w2 op2)
      = (findWithNesting s.definitions w1 s.query.parameterCount op1).bind (fun r1 =>
          (findWithNesting s.definitions w2
              (s.query.parameterCount + r1.whereParams.length) op2).map (fun r2 =>
            { s with query := { s.query with
                whereClause := some r2.whereClause,
                params := s.query.params ++ r1.whereParams.map .w ++ r2.whereParams.map .w,
                parameterCount := s.query.parameterCount + r1.whereParams.length
                  + r2.whereParams.length } }))) := by
  refine ⟨?_, ?_, ?_⟩
  · cases h1 : find dq.definition w1 dq.query.parameterCount "AND" none with
    | error e => simp [Delete.whereObj, h1, Except.bind]
    | ok r1 =>
      cases h2 : find dq.definition w2 r1.parameterCount "AND" none with
      | error e => simp [Delete.whereObj, h1, h2, Except.bind, Except.map]
      | ok r2 => simp [Delete.whereObj, h1, h2, Except.bind, Except.map]
  · cases h1 : find u.definition w1 u.query.parameterCount "AND" none with
    | error e => simp [Update.whereObj, h1, Except.bind]
    | ok r1 =>
      cases h2 : find u.definition w2 r1.parameterCount "AND" none with
      | error e => simp [Update.whereObj, h1, h2, Except.bind, Except.map]
      | ok r2 => simp [Update.whereObj, h1, h2, Except.bind, Except.map]
  · cases h1 : findWithNesting s.definitions w1 s.query.parameterCount op1 with
    | error e => simp [Select.whereObj, h1, Except.bind]
    | ok r1 =>
      cases h2 : findWithNesting s.definitions w2
          (s.query.parameterCount + r1.whereParams.length) op2 with
      | error e => simp [Select.whereObj, Select.whereRaw, h1, h2, Except.bind, Except.map]
      | ok r2 => simp [Select.whereObj, Select.whereRaw, h1, h2, Except.bind, Except.map]

/-- C3 counterexample: on a concrete `Delete`, `where({a: 1})` followed by
`where({b: 2})` serializes with the placeholder `$2`, which differs from the
statement produced by `where({b: 2})` alone (placeholder `$1`). -/
theorem delete_double_where_not_second_only :
    (((mkDelete testDef).whereObj [("a", .scalar (.num 1))]).bind
        (fun d => d.whereObj [("b", .scalar (.num 2))])).map (fun d => d.executeStr.1)
      = .ok "DELETE FROM test_table WHERE test_table.b = $2::int RETURNING \"a\" AS \"a\", \"b\" AS \"b\"" ∧
    ((mkDelete testDef).whereObj [("b", .scalar (.num 2))]).map (fun d => d.executeStr.1)
      = .ok "DELETE FROM test_table WHERE test_table.b = $1::int RETURNING \"a\" AS \"a\", \"b\" AS \"b\"" ∧
    (("DELETE FROM test_table WHERE test_table.b = $2::int RETURNING \"a\" AS \"a\", \"b\" AS \"b\""
        : String)
      == "DELETE FROM test_table WHERE test_table.b = $1::int RETURNING \"a\" AS \"a\", \"b\" AS \"b\"")
      = false := ⟨rfl, rfl, rfl⟩

/-- The nested-reference branch never raises the `Unable to join` error: it
either succeeds or crashes on an unregistered alias. -/
theorem joinNestedClauses_not_unable (defs : QueryDefs) (nm : String) :
    ∀ l, isUnableToJoin (joinNestedClauses defs nm l) = false := by
  intro l
  induction l with
  | nil => rfl
  | cons kv rest ih =>
    obtain ⟨a2, f2⟩ := kv
    simp only [joinNestedClauses]
    cases defs.lookup a2 with
    | none => rfl
    | some d' =>
      cases h : joinNestedClauses defs nm rest with
      | error e =>
        rw [h] at ih
        simpa [isUnableToJoin] using ih
      | ok cs => rfl

/-- C5 (amended): the join resolver never fails with the
`Unable to join field ...` error naming the offending field — for every value
shape one of the four earlier branches applies (falsy values compile to
`IS NULL`, non-object truthy values such as functions bind as literal
parameters, objects with a truthy `__ref` resolve against root, and every
remaining object is treated as a nested alias reference), so the error branch
is unreachable. -/
theorem joinOne_never_unable (jtd : EntityDefinition) (tblAlias : String) (defs : QueryDefs)
    (field : String) (v : JoinValue) (pc : Nat) :
    isUnableToJoin (joinOne jtd tblAlias defs field v pc) = false := by
  cases v with
  | jnull => rfl
  | func => rfl
  | date iso => rfl
  | ref f =>
    by_cases hf : f = ""
    · subst hf
      simp only [joinOne, jTruthy, jIsObject, jIsDate, jRefField, jNestedPairs]
      cases h : joinNestedClauses defs
          ("\"" ++ tblAlias ++ "\"." ++ getDatabaseName jtd field false) [("__ref", "")] with
      | error e =>
        have := joinNestedClauses_not_unable defs
          ("\"" ++ tblAlias ++ "\"." ++ getDatabaseName jtd field false) [("__ref", "")]
        rw [h] at this
        simpa [isUnableToJoin] using this
      | ok cs => simp [isUnableToJoin, h]
    · simp [joinOne, jTruthy, jIsObject, jIsDate, jRefField, hf, isUnableToJoin]
  | scalar sv =>
    cases sv with
    | num n =>
      by_cases hn : n == 0 <;>
        simp [joinOne, jTruthy, jIsObject, jIsDate, hn, isUnableToJoin, bne]
    | str s =>
      by_cases hs : s == "" <;>
        simp [joinOne, jTruthy, jIsObject, jIsDate, hs, isUnableToJoin, bne]
    | bool b => cases b <;> rfl
    | date iso => rfl
  | nested m =>
    simp only [joinOne, jTruthy, jIsObject, jIsDate, jRefField, jNestedPairs]
    cases h : joinNestedClauses defs
        ("\"" ++ tblAlias ++ "\"." ++ getDatabaseName jtd field false) m with
    | error e =>
      have := joinNestedClauses_not_unable defs
        ("\"" ++ tblAlias ++ "\"." ++ getDatabaseName jtd field false) m
      rw [h] at this
      simpa [isUnableToJoin] using this
    | ok cs => simp [isUnableToJoin, h]

/-- C5 counterexample: a function value in a JoinOn entry is none of the four
recognized shapes (not null, not a scalar or date literal, not `ref(field)`,
not a nested alias reference), yet the resolver does not fail: it binds the
function as a literal parameter `"A".x = $1`. -/
theorem join_function_value_no_error :
    joinOne otherDef "A" ⟨testDef, []⟩ "x" .func 0 = .ok (["\"A\".x = $1"], [.func], 1) ∧
    isUnableToJoin (joinOne otherDef "A" ⟨testDef, []⟩ "x" JoinValue.func 0) = false :=
  ⟨rfl, rfl⟩

/-- The LIMIT/OFFSET suffix starts with a space, hence not with a digit. -/
theorem limit_suffix_starts_space (a b : Nat) (c : Char) (cs : List Char)
    (h : (" LIMIT $" ++ natStr a ++ " OFFSET $" ++ natStr b).data = c :: cs) :
    isDigitC c = false := by
  have hd : (" LIMIT $" ++ natStr a ++ " OFFSET $" ++ natStr b).data
      = ' ' :: (((("LIMIT $").data ++ (natStr a).data) ++ (" OFFSET $").data)
          ++ (natStr b).data) := rfl
  rw [hd] at h
  cases h
  rfl

/-- C6 (amended): on a Select whose serialized placeholders are already the
contiguous run `1 .. parameterCount` (in particular, no Comparison filter and
a single `where` call) and whose limit/offset are unset, calling `limit(n)`
and `offset(m)` with truthy `n, m` appends exactly ` LIMIT $K+1 OFFSET $K+2`
and the values `n, m` to the argument list, so the statement's placeholders
are the contiguous run `1 .. K+2` with the LIMIT placeholder strictly after
all where/join placeholders and before the OFFSET placeholder. -/
theorem select_limit_offset_contiguous (s : Select) (n m : Int)
    (hl : s.query.limit = none) (ho : s.query.offset = none)
    (hn : (n == 0) = false) (hm : (m == 0) = false)
    (hbase : placeholders (s.executeStr).1 = List.range' 1 s.query.parameterCount) :
    ((s.limitFn n).offsetFn m).executeStr.1
        = s.executeStr.1 ++ (" LIMIT $" ++ natStr (s.query.parameterCount + 1)
            ++ " OFFSET $" ++ natStr (s.query.parameterCount + 2)) ∧
    ((s.limitFn n).offsetFn m).executeStr.2
        = s.executeStr.2 ++ [QueryParam.int n, QueryParam.int m] ∧
    placeholders ((s.limitFn n).offsetFn m).executeStr.1
        = List.range' 1 (s.query.parameterCount + 2) := by
  have hn' : ¬ n = 0 := by simpa using hn
  have hm' : ¬ m = 0 := by simpa using hm
  have htext : ((s.limitFn n).offsetFn m).executeStr.1
      = s.executeStr.1 ++ (" LIMIT $" ++ natStr (s.query.parameterCount + 1)
          ++ " OFFSET $" ++ natStr (s.query.parameterCount + 2)) := by
    simp [Select.limitFn, Select.offsetFn, Select.executeStr, hl, ho, hn', hm',
      jsTruthyNum, String.append_assoc]
  refine ⟨htext, ?_, ?_⟩
  · simp [Select.limitFn, Select.offsetFn, Select.executeStr, hl, ho, hn', hm', jsTruthyNum]
  · rw [htext, placeholders_append _ _
      (fun c cs h => limit_suffix_starts_space _ _ c cs h), hbase, placeholders_limit_offset]
    have h1 : List.range' 1 (s.query.parameterCount + 1)
        = List.range' 1 s.query.parameterCount ++ [1 + 1 * s.query.parameterCount] :=
      List.range'_concat 1 s.query.parameterCount
    have h2 : List.range' 1 (s.query.parameterCount + 1 + 1)
        = List.range' 1 (s.query.parameterCount + 1) ++ [1 + 1 * (s.query.parameterCount + 1)] :=
      List.range'_concat 1 (s.query.parameterCount + 1)
    rw [show s.query.parameterCount + 2 = s.query.parameterCount + 1 + 1 from rfl,
      h2, h1, List.append_assoc]
    congr 1
    simp only [List.singleton_append, List.cons.injEq, List.nil_eq, and_true]
    omega

/-- C6 witness: on a fresh Select over the test entity (zero parameters so
far), `limit(1)` and `offset(2)` yield the contiguous placeholder run 1, 2. -/
theorem select_limit_offset_contiguous_witness :
    placeholders (((mkSelect testDef []).limitFn 1).offsetFn 2).executeStr.1
      = List.range' 1 2 :=
  (select_limit_offset_contiguous (mkSelect testDef []) 1 2 rfl rfl rfl rfl rfl).2.2

/-- C6 counterexample: with a Comparison in the where clause the statement's
placeholders are `1, 1, 3, 4` — the LIMIT/OFFSET placeholders do come last
and in order, but the statement's numbering is not contiguous, contrary to
the claim. -/
theorem select_limit_offset_noncontiguous :
    ((mkSelect testDef []).whereObj
        [("a", .arr [.num 5]), ("b", .comp .greater (some (.num 2)))] "AND").map
      (fun s => placeholders ((s.limitFn 1).offsetFn 2).executeStr.1)
      = .ok [1, 1, 3, 4] ∧
    (([1, 1, 3, 4] : List Nat) == List.range' 1 4) = false := ⟨rfl, rfl⟩

end Zorm
